import Mathlib

/-!
Shallow embedding of the data-access layer of the Event Registration and
Check-in System (src/db.ts, with entity types from src/types.ts).

The backing store (a hosted Supabase instance holding the four tables
`users`, `events`, `registrations`, `participants`) is modelled as a
`Store` of four lists of rows.  Each `DB` operation of src/db.ts becomes a
pure function on `Store`.  Remote calls whose failure the code explicitly
branches on, or explicitly ignores, take a Boolean failure flag; the
fetches that merely reflect the content of the store are modelled directly
on the store.  Column values are `String` (uuids, ISO timestamps) except
for the enumerated status columns, which get inductive types mirroring the
check constraints and the union types of src/types.ts.  DB-generated uuids
and timestamps enter as explicit parameters.
-/

namespace EventCheckIn

/-- Role of a user: the union type UserRole of src/types.ts. -/
inductive UserRole where
  | student
  | organizer
  | admin
deriving DecidableEq, Repr

/-- Approval status used by both users and events:
pending, approved or rejected. -/
inductive ApprovalStatus where
  | pending
  | approved
  | rejected
deriving DecidableEq, Repr

/-- Status of a registration: the union type of src/types.ts
(registered or checked-in). -/
inductive RegStatus where
  | registered
  | checkedIn
deriving DecidableEq, Repr

/-- Row of the `users` table (schema comment of src/db.ts).  The
DB-generated uuid and timestamp columns are plain strings. -/
structure UserRow where
  id : String
  name : String
  email : String
  password : Option String
  role : UserRole
  uni_id : String
  profile_photo : Option String
  status : Option ApprovalStatus
  created_at : String
deriving DecidableEq, Repr

/-- Row of the `events` table. -/
structure EventRow where
  id : String
  title : String
  description : Option String
  organizer_name : Option String
  organizer_email : Option String
  organizer_id : Option String
  department : Option String
  venue : Option String
  date : Option String
  start_time : Option String
  end_time : Option String
  max_participants : Nat
  status : Option ApprovalStatus
  poster_url : Option String
  created_at : String
deriving DecidableEq, Repr

/-- Row of the `registrations` table. -/
structure RegRow where
  id : String
  user_id : String
  user_name : String
  event_id : String
  event_title : String
  timestamp : String
  status : RegStatus
  qr_payload : String
  check_in_time : Option String
deriving DecidableEq, Repr

/-- Row of the `participants` table (append-only attendance log).  The
DB-generated primary key is not observed by any code path and is omitted. -/
structure ParticipantRow where
  registration_id : String
  user_id : String
  event_id : String
  user_name : String
  event_title : String
  check_in_time : String
deriving DecidableEq, Repr

/-- Domain User object (interface User of src/types.ts), as produced by
mapUser of src/db.ts. -/
structure User where
  _id : String
  name : String
  email : String
  password : Option String
  role : UserRole
  uniId : String
  profilePhoto : Option String
  status : ApprovalStatus
deriving DecidableEq, Repr

/-- Domain Event object (interface Event of src/types.ts), as produced by
mapEvent of src/db.ts. -/
structure Event where
  _id : String
  title : String
  description : Option String
  organizerName : Option String
  organizerEmail : Option String
  organizerId : Option String
  department : Option String
  venue : Option String
  date : Option String
  startTime : Option String
  endTime : Option String
  maxParticipants : Nat
  status : Option ApprovalStatus
  createdAt : String
  posterUrl : Option String
deriving DecidableEq, Repr

/-- Domain Registration object (interface Registration of src/types.ts),
as produced by mapReg of src/db.ts. -/
structure Registration where
  _id : String
  userId : String
  userName : String
  eventId : String
  eventTitle : String
  timestamp : String
  status : RegStatus
  qrPayload : String
  checkInTime : Option String
deriving DecidableEq, Repr

/-- The mapUser converter of src/db.ts; `data.status || 'approved'`
becomes a default on the optional column. -/
def mapUser (data : UserRow) : User :=
  { _id := data.id
    name := data.name
    email := data.email
    password := data.password
    role := data.role
    uniId := data.uni_id
    profilePhoto := data.profile_photo
    status := data.status.getD .approved }

/-- The mapEvent converter of src/db.ts. -/
def mapEvent (data : EventRow) : Event :=
  { _id := data.id
    title := data.title
    description := data.description
    organizerName := data.organizer_name
    organizerEmail := data.organizer_email
    organizerId := data.organizer_id
    department := data.department
    venue := data.venue
    date := data.date
    startTime := data.start_time
    endTime := data.end_time
    maxParticipants := data.max_participants
    status := data.status
    createdAt := data.created_at
    posterUrl := data.poster_url }

/-- The mapReg converter of src/db.ts. -/
def mapReg (data : RegRow) : Registration :=
  { _id := data.id
    userId := data.user_id
    userName := data.user_name
    eventId := data.event_id
    eventTitle := data.event_title
    timestamp := data.timestamp
    status := data.status
    qrPayload := data.qr_payload
    checkInTime := data.check_in_time }

/-- The whole backing store: the four tables. -/
structure Store where
  users : List UserRow
  events : List EventRow
  registrations : List RegRow
  participants : List ParticipantRow
deriving DecidableEq, Repr

/-- Model of the PostgREST maybeSingle modifier: none on zero matching
rows, the row on exactly one, and an error on two or more. -/
def maybeSingle {α : Type} (rows : List α) : Except Unit (Option α) :=
  match rows with
  | [] => .ok none
  | [a] => .ok (some a)
  | _ => .error ()

/-- Insert an element into a list sorted by `le` (helper for `orderBy`). -/
def orderInsert {α : Type} (le : α → α → Bool) (a : α) : List α → List α
  | [] => [a]
  | b :: l => if le a b then a :: b :: l else b :: orderInsert le a l

/-- Model of the PostgREST order modifier: a sort of the selected rows by
the given comparison (insertion sort, adequate since no claim depends on
which stable order the server uses). -/
def orderBy {α : Type} (le : α → α → Bool) : List α → List α
  | [] => []
  | a :: l => orderInsert le a (orderBy le l)

/-- Textual form of a role, as stored in the `role` column; ordering by
the role column compares these strings. -/
def roleText : UserRole → String
  | .student => "student"
  | .organizer => "organizer"
  | .admin => "admin"

/-- The result object of DB.checkInUser. -/
structure CheckInResult where
  success : Bool
  message : Option String
  registration : Option Registration
deriving DecidableEq, Repr

/-- DB.getEvents of src/db.ts: all event rows ordered by created_at
descending, mapped by mapEvent; the empty list when the client is not
configured or the select reports an error. -/
def getEvents (configured fails : Bool) (s : Store) : List Event :=
  if !configured then []
  else if fails then []
  else (orderBy (fun a b => b.created_at ≤ a.created_at) s.events).map mapEvent

/-- DB.getAllUsers of src/db.ts: all user rows ordered by role ascending,
mapped by mapUser; the empty list when unconfigured or on error. -/
def getAllUsers (configured fails : Bool) (s : Store) : List User :=
  if !configured then []
  else if fails then []
  else (orderBy (fun a b => roleText a.role ≤ roleText b.role) s.users).map mapUser

/-- DB.getPendingUsers of src/db.ts: user rows with role organizer and
status pending, mapped by mapUser; the empty list when unconfigured or on
error. -/
def getPendingUsers (configured fails : Bool) (s : Store) : List User :=
  if !configured then []
  else if fails then []
  else (s.users.filter
    (fun u => u.role = .organizer ∧ u.status = some .pending)).map mapUser

/-- DB.getRegistrationsByUser of src/db.ts: registration rows with the
given user_id, mapped by mapReg; the empty list when unconfigured or on
error. -/
def getRegistrationsByUser (configured fails : Bool) (s : Store)
    (userId : String) : List Registration :=
  if !configured then []
  else if fails then []
  else (s.registrations.filter (fun r => r.user_id = userId)).map mapReg

/-- DB.getRegistrationsByEvent of src/db.ts: registration rows with the
given event_id, mapped by mapReg; the empty list when unconfigured or on
error. -/
def getRegistrationsByEvent (configured fails : Bool) (s : Store)
    (eventId : String) : List Registration :=
  if !configured then []
  else if fails then []
  else (s.registrations.filter (fun r => r.event_id = eventId)).map mapReg

/-- DB.getAllParticipants of src/db.ts: participant rows ordered by
check_in_time descending, returned raw (no converter is applied); the
empty list when unconfigured or on error. -/
def getAllParticipants (configured fails : Bool) (s : Store) :
    List ParticipantRow :=
  if !configured then []
  else if fails then []
  else orderBy (fun a b => b.check_in_time ≤ a.check_in_time) s.participants

/-- Input to DB.createUser: a User without its _id (the TypeScript type
Omit of User and _id); the status field is present but, as the theorems
show, ignored. -/
structure UserInput where
  name : String
  email : String
  password : Option String
  role : UserRole
  uniId : String
  profilePhoto : Option String
  status : Option ApprovalStatus
deriving DecidableEq, Repr

/-- DB.createUser of src/db.ts: computes status from the requested role
(pending for organizer, approved otherwise), inserts one user row with
that status, and returns the mapped inserted row.  `newId` and
`createdAt` stand for the DB-generated uuid and timestamp. -/
def createUser (s : Store) (user : UserInput) (newId createdAt : String) :
    Store × User :=
  let status : ApprovalStatus :=
    if user.role = .organizer then .pending else .approved
  let row : UserRow :=
    { id := newId
      name := user.name
      email := user.email
      password := user.password
      role := user.role
      uni_id := user.uniId
      profile_photo := user.profilePhoto
      status := some status
      created_at := createdAt }
  ({ s with users := s.users ++ [row] }, mapUser row)

/-- DB.updateUserStatus of src/db.ts: set the status column of every user
row whose id matches. -/
def updateUserStatus (s : Store) (userId : String)
    (status : ApprovalStatus) : Store :=
  let users := s.users.map (fun u =>
    if u.id = userId then { u with status := some status } else u)
  { s with users := users }

/-- DB.updateEventStatus of src/db.ts: set the status column of every
event row whose id matches. -/
def updateEventStatus (s : Store) (eventId : String)
    (status : ApprovalStatus) : Store :=
  let events := s.events.map (fun e =>
    if e.id = eventId then { e with status := some status } else e)
  { s with events := events }

/-- DB.deleteEvent of src/db.ts: delete the event row; the schema's
on-delete-cascade clauses also remove the registrations of the event and
the participant rows referencing the event or one of those
registrations. -/
def deleteEvent (s : Store) (eventId : String) : Store :=
  let deadRegIds :=
    (s.registrations.filter (fun r => r.event_id = eventId)).map (·.id)
  { s with
    events := s.events.filter (fun e => ¬ e.id = eventId)
    registrations := s.registrations.filter (fun r => ¬ r.event_id = eventId)
    participants := s.participants.filter
      (fun p => ¬ p.event_id = eventId ∧ ¬ p.registration_id ∈ deadRegIds) }

/-- DB.init of src/db.ts: look for the admin user by email and, when it
is absent, insert the seed admin row.  Errors of either call are caught
and logged, leaving the store as is; `seedFails` selects that path. -/
def dbInit (s : Store) (newId createdAt : String) (seedFails : Bool) : Store :=
  match maybeSingle (s.users.filter (fun u => u.email = "admin@gmail.com")) with
  | .error _ => s
  | .ok (some _) => s
  | .ok none =>
    if seedFails then s
    else
      { s with users := s.users ++
          [{ id := newId
             name := "System Admin"
             email := "admin@gmail.com"
             password := some "123"
             role := .admin
             uni_id := "ADMIN-001"
             profile_photo := some "/admin.png"
             status := some .approved
             created_at := createdAt }] }

/-- DB.findUserByEmail of src/db.ts: the user row with the given email,
mapped; none when there is no such row (a multi-row match raises, as does
a reported error: the raising paths are the Except error). -/
def findUserByEmail (s : Store) (email : String) :
    Except Unit (Option User) :=
  match maybeSingle (s.users.filter (fun u => u.email = email)) with
  | .error e => .error e
  | .ok none => .ok none
  | .ok (some row) => .ok (some (mapUser row))

/-- Input to DB.createEvent: an Event without _id, status and createdAt. -/
structure EventInput where
  title : String
  description : Option String
  organizerName : Option String
  organizerEmail : Option String
  organizerId : Option String
  department : Option String
  venue : Option String
  date : Option String
  startTime : Option String
  endTime : Option String
  maxParticipants : Nat
  posterUrl : Option String
deriving DecidableEq, Repr

/-- DB.createEvent of src/db.ts: insert one event row with status
pending and return the mapped inserted row. -/
def createEvent (s : Store) (evt : EventInput) (newId createdAt : String) :
    Store × Event :=
  let row : EventRow :=
    { id := newId
      title := evt.title
      description := evt.description
      organizer_name := evt.organizerName
      organizer_email := evt.organizerEmail
      organizer_id := evt.organizerId
      department := evt.department
      venue := evt.venue
      date := evt.date
      start_time := evt.startTime
      end_time := evt.endTime
      max_participants := evt.maxParticipants
      status := some .pending
      poster_url := evt.posterUrl
      created_at := createdAt }
  ({ s with events := s.events ++ [row] }, mapEvent row)

/-- DB.registerForEvent of src/db.ts.  The existence check fetches the
registrations of the (user, event) pair with maybeSingle and DISCARDS any
error (the code reads only `data`), so an error there behaves like no
match.  When a match is found the call returns null (modelled as
`.ok none`) without touching the store; otherwise it inserts one row with
status registered, qr_payload `eventId:userId` and a null check_in_time,
and returns the mapped inserted row.  An insert error is thrown
(`.error`), leaving the store unchanged.  `newId` and `ts` stand for the
generated uuid and the `new Date().toISOString()` timestamp. -/
def registerForEvent (s : Store) (userId userName eventId eventTitle : String)
    (newId ts : String) (insertFails : Bool) :
    Store × Except Unit (Option Registration) :=
  let existing : Option RegRow :=
    match maybeSingle (s.registrations.filter
        (fun r => r.user_id = userId ∧ r.event_id = eventId)) with
    | .ok o => o
    | .error _ => none
  match existing with
  | some _ => (s, .ok none)
  | none =>
    if insertFails then (s, .error ())
    else
      let row : RegRow :=
        { id := newId
          user_id := userId
          user_name := userName
          event_id := eventId
          event_title := eventTitle
          timestamp := ts
          status := .registered
          qr_payload := eventId ++ ":" ++ userId
          check_in_time := none }
      ({ s with registrations := s.registrations ++ [row] },
       .ok (some (mapReg row)))

/-- The registrations update of DB.checkInUser: set status checked-in and
check_in_time on every row whose id matches (the update filters on
`id = reg.id`). -/
def updateRegRows (regs : List RegRow) (id now : String) : List RegRow :=
  regs.map (fun r =>
    if r.id = id then { r with status := .checkedIn, check_in_time := some now }
    else r)

/-- DB.checkInUser of src/db.ts.  Fetch the registration whose qr_payload
equals the scanned payload with maybeSingle; a fetch error or no match
gives the invalid-code result; a row already checked-in gives the
already-checked-in result carrying the mapped row; otherwise the status
update runs (its reported error gives the check-in-failed result), then
the participant insert runs with its outcome IGNORED (`insertFails` makes
it a no-op), then the updated row is re-fetched with single and returned
with success true.  `now` is the one `new Date().toISOString()` used for
both writes; `updateFails` and `insertFails` are the failure flags of the
two writes. -/
def checkInUser (s : Store) (qrPayload : String) (now : String)
    (updateFails insertFails : Bool) : Store × CheckInResult :=
  match maybeSingle (s.registrations.filter
      (fun r => r.qr_payload = qrPayload)) with
  | .error _ =>
    (s, { success := false, message := some "Invalid registration code."
          registration := none })
  | .ok none =>
    (s, { success := false, message := some "Invalid registration code."
          registration := none })
  | .ok (some reg) =>
    if reg.status = .checkedIn then
      (s, { success := false, message := some "Already checked in!"
            registration := some (mapReg reg) })
    else if updateFails then
      (s, { success := false, message := some "Check-in failed."
            registration := none })
    else
      let regs1 := updateRegRows s.registrations reg.id now
      let parts1 :=
        if insertFails then s.participants
        else s.participants ++
          [{ registration_id := reg.id
             user_id := reg.user_id
             event_id := reg.event_id
             user_name := reg.user_name
             event_title := reg.event_title
             check_in_time := now }]
      let finalReg :=
        match maybeSingle (regs1.filter (fun r => r.id = reg.id)) with
        | .ok (some r) => some r
        | _ => none
      ({ s with registrations := regs1, participants := parts1 },
       { success := true, message := none
         registration := finalReg.map mapReg })

/-- One store-mutating DB operation, for stating trace invariants over
arbitrary operation sequences.  Read-only operations leave the store
unchanged and are omitted. -/
inductive Op where
  | opInit (newId createdAt : String) (seedFails : Bool)
  | opCreateUser (user : UserInput) (newId createdAt : String)
  | opUpdateUserStatus (userId : String) (status : ApprovalStatus)
  | opCreateEvent (evt : EventInput) (newId createdAt : String)
  | opUpdateEventStatus (eventId : String) (status : ApprovalStatus)
  | opDeleteEvent (eventId : String)
  | opRegister (userId userName eventId eventTitle newId ts : String)
      (insertFails : Bool)
  | opCheckIn (qrPayload now : String) (updateFails insertFails : Bool)

/-- Apply one DB operation to the store. -/
def applyOp (s : Store) : Op → Store
  | .opInit newId createdAt seedFails => dbInit s newId createdAt seedFails
  | .opCreateUser user newId createdAt => (createUser s user newId createdAt).1
  | .opUpdateUserStatus userId status => updateUserStatus s userId status
  | .opCreateEvent evt newId createdAt => (createEvent s evt newId createdAt).1
  | .opUpdateEventStatus eventId status => updateEventStatus s eventId status
  | .opDeleteEvent eventId => deleteEvent s eventId
  | .opRegister userId userName eventId eventTitle newId ts insertFails =>
    (registerForEvent s userId userName eventId eventTitle newId ts
      insertFails).1
  | .opCheckIn qrPayload now updateFails insertFails =>
    (checkInUser s qrPayload now updateFails insertFails).1

/-- Apply a sequence of DB operations to the store, left to right. -/
def applyOps (s : Store) : List Op → Store
  | [] => s
  | op :: ops => applyOps (applyOp s op) ops

/-- Whether a registration row is already checked in, as a proposition on
a store: every row carrying the id has status checked-in. -/
def StaysCheckedIn (s : Store) (i : String) : Prop :=
  ∀ r ∈ s.registrations, r.id = i → r.status = .checkedIn

instance (s : Store) (i : String) : Decidable (StaysCheckedIn s i) := by
  unfold StaysCheckedIn; infer_instance

/-- Whether an operation can mint the registration id `i`: only
registerForEvent inserts a registration row, under a DB-generated uuid,
so a trace respecting primary-key freshness never reuses an id. -/
def opAvoidsId (op : Op) (i : String) : Bool :=
  match op with
  | .opRegister _ _ _ _ newId _ _ => newId ≠ i
  | _ => true

/-- The invariant of the spec on the registrations table: no two rows
share a (user_id, event_id) pair. -/
def AtMostOnePerPair (regs : List RegRow) : Prop :=
  List.Pairwise (fun a b => ¬ (a.user_id = b.user_id ∧ a.event_id = b.event_id))
    regs

instance (regs : List RegRow) : Decidable (AtMostOnePerPair regs) := by
  unfold AtMostOnePerPair; infer_instance

-- Helper lemmas

theorem filter_eq_singleton_mem {α : Type} (p : α → Bool) (l : List α) (a : α)
    (h : l.filter p = [a]) : a ∈ l ∧ p a = true := by
  have ha : a ∈ l.filter p := by rw [h]; exact List.mem_singleton_self a
  exact ⟨List.mem_of_mem_filter ha, List.of_mem_filter ha⟩

theorem filter_id_of_nodup (regs : List RegRow) (reg : RegRow)
    (hmem : reg ∈ regs) (hnd : (regs.map (fun r => r.id)).Nodup) :
    regs.filter (fun r => r.id = reg.id) = [reg] := by
  induction regs with
  | nil => cases hmem
  | cons a l ih =>
    rw [List.map_cons, List.nodup_cons] at hnd
    rcases List.mem_cons.mp hmem with rfl | hmem
    · have htail : l.filter (fun r => r.id = reg.id) = [] := by
        apply List.filter_eq_nil_iff.mpr
        intro r hr
        simp only [decide_eq_true_eq]
        intro hid
        exact hnd.1 (hid ▸ List.mem_map_of_mem (fun r => r.id) hr)
      simp [List.filter_cons, htail]
    · have hne : ¬ (a.id = reg.id) := by
        intro hid
        exact hnd.1 (hid ▸ List.mem_map_of_mem (fun r => r.id) hmem)
      simp [List.filter_cons, hne, ih hmem hnd.2]

theorem updateRegRows_filter (regs : List RegRow) (i now : String) :
    (updateRegRows regs i now).filter (fun r => r.id = i)
      = (regs.filter (fun r => r.id = i)).map
          (fun r => { r with status := .checkedIn, check_in_time := some now }) := by
  induction regs with
  | nil => rfl
  | cons a l ih =>
    by_cases h : a.id = i
    · simp [updateRegRows, List.filter_cons, h, List.map_cons] at ih ⊢
      exact ih
    · simp [updateRegRows, List.filter_cons, h, List.map_cons] at ih ⊢
      exact ih

-- Concrete fixtures used by the witness theorems.

/-- Sample registration row with status registered. -/
def sampleReg : RegRow :=
  { id := "r1"
    user_id := "u1"
    user_name := "Alice"
    event_id := "e1"
    event_title := "Tech Expo"
    timestamp := "2026-01-01T09:00:00Z"
    status := .registered
    qr_payload := "e1:u1"
    check_in_time := none }

/-- Sample registration row after a check-in. -/
def sampleRegDone : RegRow :=
  { sampleReg with
      status := .checkedIn,
      check_in_time := some "2026-01-01T10:00:00Z" }

/-- Store holding the one registered sample row. -/
def sampleStore : Store :=
  { users := [], events := [], registrations := [sampleReg], participants := [] }

/-- Store holding the one checked-in sample row. -/
def sampleStoreDone : Store :=
  { users := [], events := [], registrations := [sampleRegDone],
    participants := [] }

-- Claim theorems

/-- C4: when the registration matching the scanned payload is already
checked in, checkInUser returns success false with the message
"Already checked in!" and the mapped existing record, and the store is
returned unchanged (no update, no participant insert). -/
theorem checkInUser_already_checked_in (s : Store) (reg : RegRow)
    (qr now : String) (updateFails insertFails : Bool)
    (hq : s.registrations.filter (fun r => r.qr_payload = qr) = [reg])
    (hst : reg.status = .checkedIn) :
    checkInUser s qr now updateFails insertFails
      = (s, { success := false, message := some "Already checked in!"
              registration := some (mapReg reg) }) := by
  unfold checkInUser
  rw [hq]
  simp [maybeSingle, hst]

/-- Witness for C4 at a concrete store. -/
theorem checkInUser_already_checked_in_witness :
    sampleStoreDone.registrations.filter (fun r => r.qr_payload = "e1:u1")
        = [sampleRegDone]
    ∧ sampleRegDone.status = .checkedIn
    ∧ checkInUser sampleStoreDone "e1:u1" "2026-01-02T08:00:00Z" false false
      = (sampleStoreDone,
         { success := false, message := some "Already checked in!"
           registration := some (mapReg sampleRegDone) }) :=
  ⟨by decide, by decide,
   checkInUser_already_checked_in sampleStoreDone sampleRegDone "e1:u1"
     "2026-01-02T08:00:00Z" false false (by decide) (by decide)⟩

/-- C5: when no registration row stores a qr_payload equal to the scanned
payload, checkInUser returns success false with the message
"Invalid registration code." and no registration, and the store is
returned unchanged. -/
theorem checkInUser_invalid_code (s : Store) (qr now : String)
    (updateFails insertFails : Bool)
    (h : ∀ r ∈ s.registrations, ¬ r.qr_payload = qr) :
    checkInUser s qr now updateFails insertFails
      = (s, { success := false, message := some "Invalid registration code."
              registration := none }) := by
  have hf : s.registrations.filter (fun r => r.qr_payload = qr) = [] := by
    apply List.filter_eq_nil_iff.mpr
    intro r hr
    simpa using h r hr
  unfold checkInUser
  rw [hf]
  simp [maybeSingle]

/-- Witness for C5 at a concrete store. -/
theorem checkInUser_invalid_code_witness :
    (∀ r ∈ sampleStore.registrations, ¬ r.qr_payload = "e9:u9")
    ∧ checkInUser sampleStore "e9:u9" "2026-01-02T08:00:00Z" false false
      = (sampleStore,
         { success := false, message := some "Invalid registration code."
           registration := none }) :=
  ⟨by decide,
   checkInUser_invalid_code sampleStore "e9:u9" "2026-01-02T08:00:00Z"
     false false (by decide)⟩

/-- C1: when the scanned payload matches exactly one registration row and
that row is still registered, and neither write fails, checkInUser returns
success true carrying the updated registration (status checked-in,
check_in_time stamped with the call time), the updated row is in the
store, and exactly one participant row referencing the registration, user
and event is appended. -/
theorem checkInUser_success (s : Store) (reg : RegRow) (qr now : String)
    (hq : s.registrations.filter (fun r => r.qr_payload = qr) = [reg])
    (hst : reg.status = .registered)
    (hnd : (s.registrations.map (fun r => r.id)).Nodup) :
    (checkInUser s qr now false false).2.success = true
    ∧ (checkInUser s qr now false false).2.registration
      = some (mapReg { reg with
          status := .checkedIn,
          check_in_time := some now })
    ∧ ({ reg with status := .checkedIn, check_in_time := some now } : RegRow)
      ∈ (checkInUser s qr now false false).1.registrations
    ∧ (checkInUser s qr now false false).1.participants
      = s.participants ++
        [{ registration_id := reg.id
           user_id := reg.user_id
           event_id := reg.event_id
           user_name := reg.user_name
           event_title := reg.event_title
           check_in_time := now }] := by
  have hmem : reg ∈ s.registrations := (filter_eq_singleton_mem _ _ _ hq).1
  have hid : s.registrations.filter (fun r => r.id = reg.id) = [reg] :=
    filter_id_of_nodup s.registrations reg hmem hnd
  have hfin : (updateRegRows s.registrations reg.id now).filter
      (fun r => r.id = reg.id)
      = [{ reg with status := .checkedIn, check_in_time := some now }] := by
    rw [updateRegRows_filter, hid]; rfl
  have hup : ({ reg with
      status := .checkedIn,
      check_in_time := some now } : RegRow)
      ∈ updateRegRows s.registrations reg.id now := by
    have := List.mem_map_of_mem
      (fun r => if r.id = reg.id
        then { r with status := RegStatus.checkedIn, check_in_time := some now }
        else r) hmem
    simpa [updateRegRows] using this
  unfold checkInUser
  rw [hq]
  simp [maybeSingle, hst, hfin, hup]

/-- Witness for C1 at a concrete store. -/
theorem checkInUser_success_witness :
    sampleStore.registrations.filter (fun r => r.qr_payload = "e1:u1")
        = [sampleReg]
    ∧ sampleReg.status = .registered
    ∧ (sampleStore.registrations.map (fun r => r.id)).Nodup
    ∧ ((checkInUser sampleStore "e1:u1" "2026-01-01T10:00:00Z" false
          false).2.success = true
      ∧ (checkInUser sampleStore "e1:u1" "2026-01-01T10:00:00Z" false
          false).2.registration
        = some (mapReg { sampleReg with
            status := .checkedIn,
            check_in_time := some "2026-01-01T10:00:00Z" })
      ∧ ({ sampleReg with
            status := .checkedIn,
            check_in_time := some "2026-01-01T10:00:00Z" } : RegRow)
        ∈ (checkInUser sampleStore "e1:u1" "2026-01-01T10:00:00Z" false
            false).1.registrations
      ∧ (checkInUser sampleStore "e1:u1" "2026-01-01T10:00:00Z" false
          false).1.participants
        = sampleStore.participants ++
          [{ registration_id := sampleReg.id
             user_id := sampleReg.user_id
             event_id := sampleReg.event_id
             user_name := sampleReg.user_name
             event_title := sampleReg.event_title
             check_in_time := "2026-01-01T10:00:00Z" }]) :=
  ⟨by decide, by decide, by decide,
   checkInUser_success sampleStore sampleReg "e1:u1" "2026-01-01T10:00:00Z"
     (by decide) (by decide) (by decide)⟩

/-- C6: when the status update succeeds but the participant (audit)
insert fails, checkInUser neither rolls back nor reports the failure: the
call still returns success true with no message, the participants table
is exactly as before (no audit row for the registration), and every row
carrying the registration id is left checked-in. -/
theorem checkInUser_no_rollback (s : Store) (reg : RegRow) (qr now : String)
    (hq : s.registrations.filter (fun r => r.qr_payload = qr) = [reg])
    (hst : reg.status = .registered) :
    (checkInUser s qr now false true).2.success = true
    ∧ (checkInUser s qr now false true).2.message = none
    ∧ (checkInUser s qr now false true).1.participants = s.participants
    ∧ ∀ r ∈ (checkInUser s qr now false true).1.registrations,
        r.id = reg.id → r.status = .checkedIn := by
  have hupd : ∀ r ∈ updateRegRows s.registrations reg.id now,
      r.id = reg.id → r.status = .checkedIn := by
    intro r hr hid
    rcases List.mem_map.mp hr with ⟨r0, _, rfl⟩
    by_cases h : r0.id = reg.id
    · simp [h]
    · rw [if_neg h] at hid
      exact absurd hid h
  unfold checkInUser
  rw [hq]
  simpa [maybeSingle, hst] using hupd

/-- Witness for C6 at a concrete store. -/
theorem checkInUser_no_rollback_witness :
    sampleStore.registrations.filter (fun r => r.qr_payload = "e1:u1")
        = [sampleReg]
    ∧ sampleReg.status = .registered
    ∧ ((checkInUser sampleStore "e1:u1" "2026-01-01T10:00:00Z" false
          true).2.success = true
      ∧ (checkInUser sampleStore "e1:u1" "2026-01-01T10:00:00Z" false
          true).2.message = none
      ∧ (checkInUser sampleStore "e1:u1" "2026-01-01T10:00:00Z" false
          true).1.participants = sampleStore.participants
      ∧ ∀ r ∈ (checkInUser sampleStore "e1:u1" "2026-01-01T10:00:00Z" false
          true).1.registrations,
          r.id = sampleReg.id → r.status = .checkedIn) :=
  ⟨by decide, by decide,
   checkInUser_no_rollback sampleStore sampleReg "e1:u1"
     "2026-01-01T10:00:00Z" (by decide) (by decide)⟩

/-- C10: a successful check-in changes nothing but the status and
check_in_time of the one matched registration row: the users and events
tables are untouched and the registrations table is the pointwise image
that rewrites exactly the matched row (all its other fields kept) and
leaves every other row identical. -/
theorem checkInUser_frame (s : Store) (reg : RegRow) (qr now : String)
    (hq : s.registrations.filter (fun r => r.qr_payload = qr) = [reg])
    (hst : reg.status = .registered)
    (hnd : (s.registrations.map (fun r => r.id)).Nodup) :
    (checkInUser s qr now false false).1.users = s.users
    ∧ (checkInUser s qr now false false).1.events = s.events
    ∧ (checkInUser s qr now false false).1.registrations
      = s.registrations.map (fun r =>
          if r = reg
          then { r with status := .checkedIn, check_in_time := some now }
          else r) := by
  have hmem : reg ∈ s.registrations := (filter_eq_singleton_mem _ _ _ hq).1
  have hmap : updateRegRows s.registrations reg.id now
      = s.registrations.map (fun r =>
          if r = reg
          then { r with status := .checkedIn, check_in_time := some now }
          else r) := by
    apply List.map_congr_left
    intro r hr
    by_cases h : r = reg
    · subst h; simp
    · have hid : ¬ (r.id = reg.id) := fun hid =>
        h (List.inj_on_of_nodup_map hnd hr hmem hid)
      simp [h, hid]
  unfold checkInUser
  rw [hq]
  simp [maybeSingle, hst, hmap]

/-- Witness for C10 at a concrete store. -/
theorem checkInUser_frame_witness :
    sampleStore.registrations.filter (fun r => r.qr_payload = "e1:u1")
        = [sampleReg]
    ∧ sampleReg.status = .registered
    ∧ (sampleStore.registrations.map (fun r => r.id)).Nodup
    ∧ ((checkInUser sampleStore "e1:u1" "2026-01-01T10:00:00Z" false
          false).1.users = sampleStore.users
      ∧ (checkInUser sampleStore "e1:u1" "2026-01-01T10:00:00Z" false
          false).1.events = sampleStore.events
      ∧ (checkInUser sampleStore "e1:u1" "2026-01-01T10:00:00Z" false
          false).1.registrations
        = sampleStore.registrations.map (fun r =>
            if r = sampleReg
            then { r with
                status := .checkedIn,
                check_in_time := some "2026-01-01T10:00:00Z" }
            else r)) :=
  ⟨by decide, by decide, by decide,
   checkInUser_frame sampleStore sampleReg "e1:u1" "2026-01-01T10:00:00Z"
     (by decide) (by decide) (by decide)⟩

theorem dbInit_registrations (s : Store) (a b : String) (c : Bool) :
    (dbInit s a b c).registrations = s.registrations := by
  unfold dbInit
  split
  · rfl
  · rfl
  · split <;> rfl

theorem updateRegRows_preserves (regs : List RegRow) (i id0 now : String)
    (h : ∀ r ∈ regs, r.id = i → r.status = .checkedIn) :
    ∀ r ∈ updateRegRows regs id0 now, r.id = i → r.status = .checkedIn := by
  intro r hr hid
  rcases List.mem_map.mp hr with ⟨r0, hr0, rfl⟩
  by_cases hcase : r0.id = id0
  · simp [hcase]
  · rw [if_neg hcase] at hid ⊢
    exact h r0 hr0 hid

theorem checkInUser_registrations_cases (s : Store) (qr now : String)
    (uF iF : Bool) :
    (checkInUser s qr now uF iF).1.registrations = s.registrations
    ∨ ∃ id0, (checkInUser s qr now uF iF).1.registrations
        = updateRegRows s.registrations id0 now := by
  cases hms : maybeSingle (s.registrations.filter
      (fun r => r.qr_payload = qr)) with
  | error e => left; simp [checkInUser, hms]
  | ok o =>
    cases o with
    | none => left; simp [checkInUser, hms]
    | some reg =>
      by_cases h1 : reg.status = RegStatus.checkedIn
      · left; simp [checkInUser, hms, h1]
      · cases uF with
        | true => left; simp [checkInUser, hms, h1]
        | false => right; exact ⟨reg.id, by simp [checkInUser, hms, h1]⟩

theorem registerForEvent_registrations_cases (s : Store)
    (userId userName eventId eventTitle newId ts : String) (iF : Bool) :
    (registerForEvent s userId userName eventId eventTitle newId ts
      iF).1.registrations = s.registrations
    ∨ ∃ row : RegRow, row.id = newId ∧
        (registerForEvent s userId userName eventId eventTitle newId ts
          iF).1.registrations = s.registrations ++ [row] := by
  cases hms : maybeSingle (s.registrations.filter
      (fun r => r.user_id = userId ∧ r.event_id = eventId)) with
  | error e =>
    cases iF with
    | true => left; unfold registerForEvent; rw [hms]; rfl
    | false =>
      right
      refine ⟨{ id := newId, user_id := userId, user_name := userName,
                event_id := eventId, event_title := eventTitle,
                timestamp := ts, status := .registered,
                qr_payload := eventId ++ ":" ++ userId,
                check_in_time := none }, rfl, ?_⟩
      unfold registerForEvent; rw [hms]; rfl
  | ok o =>
    cases o with
    | some reg => left; unfold registerForEvent; rw [hms]
    | none =>
      cases iF with
      | true => left; unfold registerForEvent; rw [hms]; rfl
      | false =>
        right
        refine ⟨{ id := newId, user_id := userId, user_name := userName,
                  event_id := eventId, event_title := eventTitle,
                  timestamp := ts, status := .registered,
                  qr_payload := eventId ++ ":" ++ userId,
                  check_in_time := none }, rfl, ?_⟩
        unfold registerForEvent; rw [hms]; rfl

theorem applyOp_staysCheckedIn (s : Store) (op : Op) (i : String)
    (hav : opAvoidsId op i = true) (h : StaysCheckedIn s i) :
    StaysCheckedIn (applyOp s op) i := by
  cases op with
  | opInit nI cA sF =>
    intro r hr hid
    rw [applyOp, dbInit_registrations] at hr
    exact h r hr hid
  | opCreateUser u nI cA => exact h
  | opUpdateUserStatus uId st => exact h
  | opCreateEvent e nI cA => exact h
  | opUpdateEventStatus eId st => exact h
  | opDeleteEvent eId =>
    intro r hr hid
    exact h r (List.mem_of_mem_filter hr) hid
  | opRegister userId userName eventId eventTitle newId ts iF =>
    intro r hr hid
    rcases registerForEvent_registrations_cases s userId userName eventId
        eventTitle newId ts iF with hc | ⟨row, hrow, hc⟩
    · rw [applyOp, hc] at hr
      exact h r hr hid
    · rw [applyOp, hc] at hr
      rcases List.mem_append.mp hr with hr | hr
      · exact h r hr hid
      · rcases List.mem_singleton.mp hr with rfl
        rw [hid] at hrow
        simp [opAvoidsId, hrow] at hav
  | opCheckIn qr now uF iF =>
    intro r hr hid
    rcases checkInUser_registrations_cases s qr now uF iF with hc | ⟨id0, hc⟩
    · rw [applyOp, hc] at hr
      exact h r hr hid
    · rw [applyOp, hc] at hr
      exact updateRegRows_preserves s.registrations i id0 now h r hr hid

/-- C2: a registration transitions to checked-in at most once and the
transition is never undone: once every registration row carrying an id is
checked in, it stays so across ANY sequence of the store-mutating DB
operations, provided the trace respects primary-key freshness (no
registerForEvent call mints the already-used id).  In particular no later
checkInUser call sets the status back to registered or re-runs the
transition, because checkInUser inspects the fetched status and only
updates rows to checked-in. -/
theorem checkedIn_stable_over_traces (ops : List Op) (s : Store) (i : String)
    (hfresh : ∀ op ∈ ops, opAvoidsId op i = true)
    (h : StaysCheckedIn s i) :
    StaysCheckedIn (applyOps s ops) i := by
  induction ops generalizing s with
  | nil => exact h
  | cons op rest ih =>
    rw [applyOps]
    exact ih (applyOp s op)
      (fun o ho => hfresh o (List.mem_cons_of_mem _ ho))
      (applyOp_staysCheckedIn s op i (hfresh op (List.mem_cons_self _ _)) h)

/-- Sample trace of DB operations used by the C2 witness. -/
def sampleOps : List Op :=
  [Op.opCheckIn "e1:u1" "2026-01-02T08:00:00Z" false false,
   Op.opRegister "u2" "Bob" "e1" "Tech Expo" "r2" "2026-01-02T09:00:00Z" false,
   Op.opUpdateUserStatus "u1" .approved,
   Op.opCheckIn "e1:u2" "2026-01-02T10:00:00Z" false false,
   Op.opDeleteEvent "e1"]

/-- Witness for C2 at a concrete store and trace. -/
theorem checkedIn_stable_over_traces_witness :
    (∀ op ∈ sampleOps, opAvoidsId op "r1" = true)
    ∧ StaysCheckedIn sampleStoreDone "r1"
    ∧ StaysCheckedIn (applyOps sampleStoreDone sampleOps) "r1" :=
  ⟨by decide, by decide,
   checkedIn_stable_over_traces sampleOps sampleStoreDone "r1"
     (by decide) (by decide)⟩

theorem filter_pair_short (regs : List RegRow) (userId eventId : String)
    (hinv : AtMostOnePerPair regs) :
    regs.filter (fun r => r.user_id = userId ∧ r.event_id = eventId) = []
    ∨ ∃ a, regs.filter
        (fun r => r.user_id = userId ∧ r.event_id = eventId) = [a] := by
  cases hf : regs.filter
      (fun r => r.user_id = userId ∧ r.event_id = eventId) with
  | nil => left; rfl
  | cons a t =>
    cases t with
    | nil => right; exact ⟨a, rfl⟩
    | cons b t2 =>
      exfalso
      have hpw : List.Pairwise
          (fun x y => ¬ (x.user_id = y.user_id ∧ x.event_id = y.event_id))
          (a :: b :: t2) := by
        rw [← hf]
        exact hinv.sublist (List.filter_sublist _)
      have hab := (List.pairwise_cons.mp hpw).1 b (List.mem_cons_self b t2)
      have ha : a ∈ regs.filter
          (fun r => r.user_id = userId ∧ r.event_id = eventId) := by
        rw [hf]; exact List.mem_cons_self a _
      have hb : b ∈ regs.filter
          (fun r => r.user_id = userId ∧ r.event_id = eventId) := by
        rw [hf]; exact List.mem_cons_of_mem a (List.mem_cons_self b t2)
      have hpa := List.of_mem_filter ha
      have hpb := List.of_mem_filter hb
      simp only [decide_eq_true_eq] at hpa hpb
      exact hab ⟨hpa.1.trans hpb.1.symm, hpa.2.trans hpb.2.symm⟩

theorem registerForEvent_insert_eq (s : Store)
    (userId userName eventId eventTitle newId ts : String)
    (hf : s.registrations.filter
      (fun r => r.user_id = userId ∧ r.event_id = eventId) = []) :
    registerForEvent s userId userName eventId eventTitle newId ts false
      = ({ s with registrations := s.registrations ++
            [{ id := newId, user_id := userId, user_name := userName,
               event_id := eventId, event_title := eventTitle,
               timestamp := ts, status := .registered,
               qr_payload := eventId ++ ":" ++ userId,
               check_in_time := none }] },
         .ok (some (mapReg
            { id := newId, user_id := userId, user_name := userName,
              event_id := eventId, event_title := eventTitle,
              timestamp := ts, status := .registered,
              qr_payload := eventId ++ ":" ++ userId,
              check_in_time := none }))) := by
  unfold registerForEvent
  rw [hf]
  rfl

theorem registerForEvent_insert_fail_eq (s : Store)
    (userId userName eventId eventTitle newId ts : String)
    (hf : s.registrations.filter
      (fun r => r.user_id = userId ∧ r.event_id = eventId) = []) :
    registerForEvent s userId userName eventId eventTitle newId ts true
      = (s, .error ()) := by
  unfold registerForEvent
  rw [hf]
  rfl

theorem registerForEvent_existing_eq (s : Store)
    (userId userName eventId eventTitle newId ts : String) (iF : Bool)
    (a : RegRow)
    (hf : s.registrations.filter
      (fun r => r.user_id = userId ∧ r.event_id = eventId) = [a]) :
    registerForEvent s userId userName eventId eventTitle newId ts iF
      = (s, .ok none) := by
  unfold registerForEvent
  rw [hf]
  rfl

/-- C3: registerForEvent preserves the at-most-one-registration-per-pair
invariant: on a store satisfying it, when a registration of the pair
already exists the call returns null with the store unchanged, and
otherwise, when the insert does not fail, it appends exactly one new
registration row with status registered for the pair; in every case the
resulting store satisfies the invariant again. -/
theorem registerForEvent_unique_pair (s : Store)
    (userId userName eventId eventTitle newId ts : String)
    (insertFails : Bool)
    (hinv : AtMostOnePerPair s.registrations) :
    AtMostOnePerPair (registerForEvent s userId userName eventId eventTitle
      newId ts insertFails).1.registrations
    ∧ ((∃ r ∈ s.registrations,
          r.user_id = userId ∧ r.event_id = eventId) →
        registerForEvent s userId userName eventId eventTitle newId ts
          insertFails = (s, .ok none))
    ∧ (insertFails = false →
        (∀ r ∈ s.registrations,
          ¬ (r.user_id = userId ∧ r.event_id = eventId)) →
        ∃ row : RegRow,
          (registerForEvent s userId userName eventId eventTitle newId ts
            insertFails).1.registrations = s.registrations ++ [row]
          ∧ row.status = .registered
          ∧ row.user_id = userId
          ∧ row.event_id = eventId
          ∧ (registerForEvent s userId userName eventId eventTitle newId ts
              insertFails).2 = .ok (some (mapReg row))) := by
  rcases filter_pair_short s.registrations userId eventId hinv with hf | ⟨a, hf⟩
  · have hnomatch : ∀ r ∈ s.registrations,
        ¬ (r.user_id = userId ∧ r.event_id = eventId) := by
      intro r hr hp
      have hmem : r ∈ s.registrations.filter
          (fun r => r.user_id = userId ∧ r.event_id = eventId) :=
        List.mem_filter.mpr ⟨hr, by simpa using hp⟩
      rw [hf] at hmem
      cases hmem
    have hpres : ∀ row : RegRow, row.user_id = userId → row.event_id = eventId
        → AtMostOnePerPair (s.registrations ++ [row]) := by
      intro row hu he
      apply List.pairwise_append.mpr
      refine ⟨hinv, List.pairwise_singleton _ _, ?_⟩
      intro x hx y hy
      rcases List.mem_singleton.mp hy with rfl
      intro hp
      exact hnomatch x hx ⟨hp.1.trans hu, hp.2.trans he⟩
    cases insertFails with
    | true =>
      rw [registerForEvent_insert_fail_eq s userId userName eventId
        eventTitle newId ts hf]
      refine ⟨hinv, ?_, ?_⟩
      · rintro ⟨r, hr, hp⟩
        exact absurd hp (hnomatch r hr)
      · intro hcontra
        cases hcontra
    | false =>
      rw [registerForEvent_insert_eq s userId userName eventId eventTitle
        newId ts hf]
      refine ⟨hpres _ rfl rfl, ?_, ?_⟩
      · rintro ⟨r, hr, hp⟩
        exact absurd hp (hnomatch r hr)
      · intro _ _
        exact ⟨_, rfl, rfl, rfl, rfl, rfl⟩
  · rw [registerForEvent_existing_eq s userId userName eventId eventTitle
      newId ts insertFails a hf]
    have hamem := filter_eq_singleton_mem _ _ _ hf
    have hpa : a.user_id = userId ∧ a.event_id = eventId := by
      simpa using hamem.2
    refine ⟨hinv, fun _ => rfl, ?_⟩
    intro _ hnone
    exact absurd hpa (hnone a hamem.1)

/-- Witness for C3 at a concrete store. -/
theorem registerForEvent_unique_pair_witness :
    AtMostOnePerPair sampleStore.registrations
    ∧ (AtMostOnePerPair (registerForEvent sampleStore "u2" "Bob" "e1"
        "Tech Expo" "r2" "2026-01-02T09:00:00Z" false).1.registrations
      ∧ ((∃ r ∈ sampleStore.registrations,
            r.user_id = "u2" ∧ r.event_id = "e1") →
          registerForEvent sampleStore "u2" "Bob" "e1" "Tech Expo" "r2"
            "2026-01-02T09:00:00Z" false = (sampleStore, .ok none))
      ∧ (false = false →
          (∀ r ∈ sampleStore.registrations,
            ¬ (r.user_id = "u2" ∧ r.event_id = "e1")) →
          ∃ row : RegRow,
            (registerForEvent sampleStore "u2" "Bob" "e1" "Tech Expo" "r2"
              "2026-01-02T09:00:00Z" false).1.registrations
              = sampleStore.registrations ++ [row]
            ∧ row.status = .registered
            ∧ row.user_id = "u2"
            ∧ row.event_id = "e1"
            ∧ (registerForEvent sampleStore "u2" "Bob" "e1" "Tech Expo" "r2"
                "2026-01-02T09:00:00Z" false).2
              = .ok (some (mapReg row)))) :=
  ⟨by decide,
   registerForEvent_unique_pair sampleStore "u2" "Bob" "e1" "Tech Expo"
     "r2" "2026-01-02T09:00:00Z" false (by decide)⟩

/-- C7: every registration row inserted by registerForEvent stores as its
qr_payload exactly the event id, a colon, and the user id, with no other
transformation, and the returned Registration carries the same string. -/
theorem registerForEvent_qr_payload (s : Store)
    (userId userName eventId eventTitle newId ts : String)
    (hnone : ∀ r ∈ s.registrations,
      ¬ (r.user_id = userId ∧ r.event_id = eventId)) :
    ∃ row : RegRow,
      (registerForEvent s userId userName eventId eventTitle newId ts
        false).1.registrations = s.registrations ++ [row]
      ∧ (registerForEvent s userId userName eventId eventTitle newId ts
          false).2 = .ok (some (mapReg row))
      ∧ row.qr_payload = eventId ++ ":" ++ userId
      ∧ (mapReg row).qrPayload = eventId ++ ":" ++ userId := by
  have hf : s.registrations.filter
      (fun r => r.user_id = userId ∧ r.event_id = eventId) = [] := by
    apply List.filter_eq_nil_iff.mpr
    intro r hr
    simpa using hnone r hr
  rw [registerForEvent_insert_eq s userId userName eventId eventTitle newId
    ts hf]
  exact ⟨_, rfl, rfl, rfl, rfl⟩

/-- Witness for C7 at a concrete store. -/
theorem registerForEvent_qr_payload_witness :
    (∀ r ∈ sampleStore.registrations,
      ¬ (r.user_id = "u2" ∧ r.event_id = "e1"))
    ∧ ∃ row : RegRow,
        (registerForEvent sampleStore "u2" "Bob" "e1" "Tech Expo" "r2"
          "2026-01-02T09:00:00Z" false).1.registrations
          = sampleStore.registrations ++ [row]
        ∧ (registerForEvent sampleStore "u2" "Bob" "e1" "Tech Expo" "r2"
            "2026-01-02T09:00:00Z" false).2 = .ok (some (mapReg row))
        ∧ row.qr_payload = "e1" ++ ":" ++ "u2"
        ∧ (mapReg row).qrPayload = "e1" ++ ":" ++ "u2" :=
  ⟨by decide,
   registerForEvent_qr_payload sampleStore "u2" "Bob" "e1" "Tech Expo" "r2"
     "2026-01-02T09:00:00Z" (by decide)⟩

/-- C8: every list-reading operation falls back to the empty list
whenever the client is not configured or the backing select reports an
error; being total functions into lists, they raise nothing. -/
theorem getters_empty_on_error (configured fails : Bool) (s : Store)
    (userId eventId : String)
    (h : configured = false ∨ fails = true) :
    getEvents configured fails s = []
    ∧ getAllUsers configured fails s = []
    ∧ getPendingUsers configured fails s = []
    ∧ getRegistrationsByUser configured fails s userId = []
    ∧ getRegistrationsByEvent configured fails s eventId = []
    ∧ getAllParticipants configured fails s = [] := by
  rcases h with h | h
  · subst h
    simp [getEvents, getAllUsers, getPendingUsers, getRegistrationsByUser,
      getRegistrationsByEvent, getAllParticipants]
  · subst h
    cases configured <;>
      simp [getEvents, getAllUsers, getPendingUsers, getRegistrationsByUser,
        getRegistrationsByEvent, getAllParticipants]

/-- Witness for C8 at a concrete store: an errored select on a nonempty
store still yields the empty lists. -/
theorem getters_empty_on_error_witness :
    ((true : Bool) = false ∨ (true : Bool) = true)
    ∧ (getEvents true true sampleStore = []
      ∧ getAllUsers true true sampleStore = []
      ∧ getPendingUsers true true sampleStore = []
      ∧ getRegistrationsByUser true true sampleStore "u1" = []
      ∧ getRegistrationsByEvent true true sampleStore "e1" = []
      ∧ getAllParticipants true true sampleStore = []) :=
  ⟨Or.inr rfl,
   getters_empty_on_error true true sampleStore "u1" "e1" (Or.inr rfl)⟩

/-- C9: the user created by createUser has status pending exactly when
the requested role is organizer, and status approved for every other
role, whatever status the caller supplied in the input object. -/
theorem createUser_status_rule (s : Store) (user : UserInput)
    (newId createdAt : String) :
    ((createUser s user newId createdAt).2.status = .pending
      ↔ user.role = .organizer)
    ∧ (user.role ≠ .organizer →
        (createUser s user newId createdAt).2.status = .approved)
    ∧ ∀ st : Option ApprovalStatus,
        (createUser s { user with status := st } newId createdAt).2.status
          = (createUser s user newId createdAt).2.status := by
  cases h : user.role <;>
    simp [createUser, mapUser, h]

/-- Sample createUser input used by the C9 witness; note the caller
supplies status rejected, which the operation ignores. -/
def sampleUserInput : UserInput :=
  { name := "Orla"
    email := "orla@uni.example"
    password := some "pw"
    role := .organizer
    uniId := "ORG-7"
    profilePhoto := none
    status := some .rejected }

/-- Witness for C9 at a concrete input. -/
theorem createUser_status_rule_witness :
    ((createUser sampleStore sampleUserInput "u7"
        "2026-01-03T08:00:00Z").2.status = .pending
      ↔ sampleUserInput.role = .organizer)
    ∧ (sampleUserInput.role ≠ .organizer →
        (createUser sampleStore sampleUserInput "u7"
          "2026-01-03T08:00:00Z").2.status = .approved)
    ∧ ∀ st : Option ApprovalStatus,
        (createUser sampleStore { sampleUserInput with status := st } "u7"
          "2026-01-03T08:00:00Z").2.status
          = (createUser sampleStore sampleUserInput "u7"
              "2026-01-03T08:00:00Z").2.status :=
  createUser_status_rule sampleStore sampleUserInput "u7"
    "2026-01-03T08:00:00Z"

end EventCheckIn
